import Mathlib

/-!
Shallow embedding of the SignEcho front end (a browser app that samples webcam
frames, sends each frame to a remote sign-language inference service, and
maintains a transcript, a confidence chart and speech output).

Sources embedded:
* `services/geminiService.ts` — `translateSignLanguageFrame`
* `App.tsx` — `speak`, `handleFrameCapture`, `toggleRecording`, state hooks
* `components/CameraView.tsx` — mount effect and its unmount cleanup

The service call, JSON parsing and the JavaScript truthiness rules are made
explicit; the event-driven UI becomes a step function on an explicit state.
-/

/-- The `{ text, confidence }` value returned by `translateSignLanguageFrame`. -/
structure ServiceReply where
  text : String
  confidence : Nat
deriving DecidableEq, Repr

/-- `TranslationResult` from `types.ts`: the service reply plus the
`timestamp: Date.now()` that `handleFrameCapture` adds. -/
structure TranslationResult where
  text : String
  confidence : Nat
  timestamp : Nat
deriving DecidableEq, Repr

/-- `ChartDataPoint` from `types.ts`: one point of the confidence chart. -/
structure ChartDataPoint where
  name : String
  confidence : Nat
deriving DecidableEq, Repr

/-- The object produced by `JSON.parse` on the service's JSON text, with the
two schema fields; either may be absent in a malformed reply. -/
structure ParsedJson where
  sign : Option String
  confidence : Option Nat
deriving DecidableEq, Repr

/-- Abstract outcome of one `ai.models.generateContent` call:
either the transport/service call throws, or it responds with an optional
`response.text` (`none` = the field is `undefined`) together with what
`JSON.parse` yields on that text (`none` = parsing throws). -/
inductive ServiceOutcome where
  | transportError
  | respond (jsonText : Option String) (parsed : Option ParsedJson)
deriving DecidableEq, Repr

/-- JavaScript truthiness test `!v` for an optional string:
`undefined` and the empty string are falsy. -/
def jsFalsyStr (v : Option String) : Bool :=
  match v with
  | none => true
  | some s => s = ""

/-- JavaScript `v || dflt` for an optional string field. -/
def jsOrElseStr (v : Option String) (dflt : String) : String :=
  match v with
  | none => dflt
  | some s => if s = "" then dflt else s

/-- JavaScript `v || dflt` for an optional numeric field (0 is falsy). -/
def jsOrElseNat (v : Option Nat) (dflt : Nat) : Nat :=
  match v with
  | none => dflt
  | some n => if n = 0 then dflt else n

/-- The sentinel "unclear" reply `{ text: '...', confidence: 0 }`. -/
def sentinel : ServiceReply := { text := "...", confidence := 0 }

/-- `translateSignLanguageFrame` from `services/geminiService.ts`, as a function
of the service outcome. The `try` block returns the sentinel when
`response.text` is falsy, otherwise normalizes the parsed fields with
`result.sign || '...'` and `result.confidence || 0`; the `catch` block
turns any thrown error (transport or `JSON.parse`) into the sentinel. -/
def translateSignLanguageFrame : ServiceOutcome → ServiceReply
  | .transportError => sentinel
  | .respond jsonText parsed =>
    if jsFalsyStr jsonText then sentinel
    else
      match parsed with
      | none => sentinel
      | some result =>
        { text := jsOrElseStr result.sign "..."
          confidence := jsOrElseNat result.confidence 0 }

/-- `speak` from `App.tsx`: returns the utterances actually issued to
`window.speechSynthesis.speak`. The guard
`if (isMuted || !text || text === '...') return;` makes it a no-op when muted
or when the text is falsy or the sentinel label. -/
def speak (isMuted : Bool) (text : String) : List String :=
  if isMuted ∨ text = "" ∨ text = "..." then [] else [text]

/-- The sentence-building block of `handleFrameCapture` (`App.tsx`):
given the previous `sentence`, returns the new sentence, the list of texts
`speak` was invoked with, and the utterances actually issued.
The outer guard is `result.text !== '...' && result.confidence > 60`; inside,
`prev[prev.length - 1]` is `undefined` on an empty array, so the repeat check
`lastWord !== result.text` is `prev.getLast? ≠ some result.text`. -/
def sentenceStep (isMuted : Bool) (r : TranslationResult) (prev : List String) :
    List String × List String × List String :=
  if r.text ≠ "..." ∧ r.confidence > 60 then
    if prev.getLast? ≠ some r.text then
      (prev ++ [r.text], [r.text], speak isMuted r.text)
    else (prev, [], [])
  else (prev, [], [])

/-- The chart update of `handleFrameCapture`:
`[...prev.slice(1), { name: formatTime(), confidence: result.confidence }]`.
`now` is the string `formatTime()` returns at processing time. -/
def updateConfidenceHistory (prev : List ChartDataPoint) (now : String)
    (confidence : Nat) : List ChartDataPoint :=
  prev.drop 1 ++ [{ name := now, confidence := confidence }]

/-- The React state that `handleFrameCapture` reads and writes. -/
structure AppCore where
  currentSign : String
  sentence : List String
  confidenceHistory : List ChartDataPoint
deriving DecidableEq, Repr

/-- Initial values of the `useState` hooks in `App.tsx`. -/
def initialCore : AppCore :=
  { currentSign := "..."
    sentence := []
    confidenceHistory := List.replicate 10 { name := "", confidence := 0 } }

/-- The body of the `try` block of `handleFrameCapture` once the service reply
is in hand: sets `currentSign`, shifts the confidence chart, and runs the
sentence-building block. Returns the new core state, the texts `speak` was
invoked with, and the utterances issued. -/
def processResult (isMuted : Bool) (now : String) (r : TranslationResult)
    (c : AppCore) : AppCore × List String × List String :=
  let hist := updateConfidenceHistory c.confidenceHistory now r.confidence
  let out := sentenceStep isMuted r c.sentence
  ({ currentSign := r.text, sentence := out.1, confidenceHistory := hist },
   out.2.1, out.2.2)

/-- How one issued inference call completes: the awaited promise resolves
(`finish`, carrying the service outcome, the `formatTime()` string and the
`Date.now()` value at processing time) or rejects (`reject`), in which case
only the `catch`/`finally` blocks run. -/
inductive Completion where
  | finish (outcome : ServiceOutcome) (now : String) (nowMs : Nat)
  | reject
deriving DecidableEq, Repr

/-- The UI events relevant to the embedded logic: a sampler tick invoking
`handleFrameCapture`, completion of the in-flight inference call, the
start/stop button (`toggleRecording`), the mute button, and the transcript
Clear button (`setSentence([])`). -/
inductive AppEvent where
  | frameTick
  | complete (c : Completion)
  | toggleRecording
  | toggleMute
  | clearSentence
deriving DecidableEq, Repr

/-- Full state of the app between events: React state, the
`isProcessingRef` busy flag, the number of inference requests in flight, and
the accumulated speech traces. -/
structure SysState where
  core : AppCore
  isActive : Bool
  isMuted : Bool
  isProcessing : Bool
  outstanding : Nat
  speakCalls : List String
  utterances : List String
deriving DecidableEq, Repr

/-- State at page load. -/
def initialSys : SysState :=
  { core := initialCore
    isActive := false
    isMuted := false
    isProcessing := false
    outstanding := 0
    speakCalls := []
    utterances := [] }

/-- One event of the event loop.
* `frameTick`: `handleFrameCapture` begins; `if (isProcessingRef.current) return;`
  drops the tick, otherwise the flag is set and the inference call issued.
* `complete c`: the awaited call finishes (only possible with a request in
  flight); on `finish` the `try` body processes the reply, on `reject` only
  the `catch` runs; the `finally` block clears the flag in both cases.
* `toggleRecording`: flips `isActive`; the pre-toggle value gates the reset
  of `sentence` and `confidenceHistory` (`if (!isActive) { ... }`).
* `toggleMute`: `setIsMuted(!isMuted)`.
* `clearSentence`: the Clear button's `setSentence([])`. -/
def step (s : SysState) : AppEvent → SysState
  | .frameTick =>
    if s.isProcessing then s
    else { s with isProcessing := true, outstanding := s.outstanding + 1 }
  | .complete c =>
    if s.outstanding = 0 then s
    else
      match c with
      | .finish outcome now nowMs =>
        let reply := translateSignLanguageFrame outcome
        let r : TranslationResult :=
          { text := reply.text, confidence := reply.confidence, timestamp := nowMs }
        let out := processResult s.isMuted now r s.core
        { s with
            core := out.1
            speakCalls := s.speakCalls ++ out.2.1
            utterances := s.utterances ++ out.2.2
            isProcessing := false
            outstanding := s.outstanding - 1 }
      | .reject =>
        { s with isProcessing := false, outstanding := s.outstanding - 1 }
  | .toggleRecording =>
    if s.isActive then { s with isActive := false }
    else
      { s with
          isActive := true
          core := { s.core with
                      sentence := []
                      confidenceHistory :=
                        List.replicate 10 { name := "", confidence := 0 } } }
  | .toggleMute => { s with isMuted := !s.isMuted }
  | .clearSentence => { s with core := { s.core with sentence := [] } }

/-- Run a sequence of events from a state. -/
def run (s : SysState) (es : List AppEvent) : SysState :=
  es.foldl step s

/-- `CameraView.tsx`: the mount effect has an empty dependency list, so it runs
once, after the first render; the cleanup closure it returns therefore captures
the `stream` state variable of that first render, which is still its initial
value `null` (`useState<MediaStream | null>(null)`). The later
`setStream(mediaStream)` only changes what subsequent renders see. A stream is
modelled as the list of its track identifiers. -/
def streamCapturedByCleanup : Option (List String) := none

/-- The unmount cleanup of the mount effect:
`if (stream) { stream.getTracks().forEach(track => track.stop()); }`.
Returns the tracks on which `stop` is called. -/
def tracksStoppedOnUnmount (captured : Option (List String)) : List String :=
  match captured with
  | none => []
  | some tracks => tracks

/-- The busy flag mirrors the number of in-flight requests: `isProcessingRef`
is set exactly while one inference call is outstanding. -/
def BusyInv (s : SysState) : Prop :=
  s.outstanding = if s.isProcessing then 1 else 0

theorem busyInv_initial : BusyInv initialSys := by
  simp [BusyInv, initialSys]

theorem busyInv_step (s : SysState) (e : AppEvent) (h : BusyInv s) : BusyInv (step s e) := by
  unfold BusyInv at h ⊢
  cases e with
  | frameTick =>
    by_cases hp : s.isProcessing <;> simp [step, hp] at h ⊢ <;> simp [h]
  | complete c =>
    by_cases ho : s.outstanding = 0
    · simpa [step, ho] using h
    · have h1 : s.outstanding = 1 := by split at h <;> omega
      cases c <;> simp [step, ho, h1]
  | toggleRecording =>
    by_cases ha : s.isActive <;> simp [step, ha] <;> exact h
  | toggleMute => simpa [step] using h
  | clearSentence => simpa [step] using h

theorem busyInv_run (s : SysState) (es : List AppEvent) (h : BusyInv s) : BusyInv (run s es) := by
  induction es generalizing s with
  | nil => exact h
  | cons e es ih => simpa [run, List.foldl_cons] using ih (step s e) (busyInv_step s e h)

/-- C1: at most one inference request is outstanding after any event sequence;
a tick that finds the busy flag set leaves the state untouched (dropped, not
queued); a tick that finds it clear sets the flag as it issues the request;
and any completion, resolved or rejected, clears the flag. -/
theorem single_flight :
    (∀ es : List AppEvent, (run initialSys es).outstanding ≤ 1)
    ∧ (∀ s : SysState, s.isProcessing = true → step s AppEvent.frameTick = s)
    ∧ (∀ s : SysState, s.isProcessing = false →
        (step s AppEvent.frameTick).isProcessing = true
        ∧ (step s AppEvent.frameTick).outstanding = s.outstanding + 1)
    ∧ (∀ (s : SysState) (c : Completion), s.outstanding ≠ 0 →
        (step s (AppEvent.complete c)).isProcessing = false) := by
  refine ⟨fun es => ?_, fun s hp => ?_, fun s hp => ?_, fun s c ho => ?_⟩
  · have h := busyInv_run initialSys es busyInv_initial
    unfold BusyInv at h; split at h <;> omega
  · simp [step, hp]
  · simp [step, hp]
  · cases c <;> simp [step, ho]

theorem single_flight_witness :
    (run initialSys [AppEvent.frameTick]).outstanding ≤ 1
    ∧ step (run initialSys [AppEvent.frameTick]) AppEvent.frameTick
        = run initialSys [AppEvent.frameTick]
    ∧ ((step initialSys AppEvent.frameTick).isProcessing = true
        ∧ (step initialSys AppEvent.frameTick).outstanding = initialSys.outstanding + 1)
    ∧ (step (run initialSys [AppEvent.frameTick])
        (AppEvent.complete Completion.reject)).isProcessing = false :=
  ⟨single_flight.1 [AppEvent.frameTick],
   single_flight.2.1 _ (by decide),
   single_flight.2.2.1 initialSys (by decide),
   single_flight.2.2.2 _ Completion.reject (by decide)⟩

/-- The sentence-building block in closed form: one `if` over the three
acceptance conditions of the spec's transition rule. -/
theorem sentenceStep_eq (m : Bool) (r : TranslationResult) (prev : List String) :
    sentenceStep m r prev
      = if r.text ≠ "..." ∧ r.confidence > 60 ∧ prev.getLast? ≠ some r.text
        then (prev ++ [r.text], [r.text], speak m r.text)
        else (prev, [], []) := by
  unfold sentenceStep
  by_cases h1 : r.text = "..."
  · simp [h1]
  · by_cases h2 : r.confidence > 60
    · by_cases h3 : prev.getLast? = some r.text <;> simp [h1, h2, h3]
    · simp [h1, h2]

/-- C2: a processed result is appended to the transcript, with `speak`
invoked on it, exactly when its label is not the sentinel, its confidence
exceeds 60, and it differs from the last transcript entry; otherwise the
transcript is untouched. Two consecutive Hello/80 results add one entry;
an A/40 result adds none. -/
theorem sentence_builder_rule :
    (∀ (m : Bool) (r : TranslationResult) (prev : List String),
      sentenceStep m r prev
        = if r.text ≠ "..." ∧ r.confidence > 60 ∧ prev.getLast? ≠ some r.text
          then (prev ++ [r.text], [r.text], speak m r.text)
          else (prev, [], []))
    ∧ (run initialSys
        [AppEvent.frameTick,
         AppEvent.complete (Completion.finish
           (ServiceOutcome.respond (some "j")
             (some { sign := some "Hello", confidence := some 80 })) "00:00:01" 1),
         AppEvent.frameTick,
         AppEvent.complete (Completion.finish
           (ServiceOutcome.respond (some "j")
             (some { sign := some "Hello", confidence := some 80 })) "00:00:02" 2)]).core.sentence
        = ["Hello"]
    ∧ (run initialSys
        [AppEvent.frameTick,
         AppEvent.complete (Completion.finish
           (ServiceOutcome.respond (some "j")
             (some { sign := some "A", confidence := some 40 })) "00:00:01" 1)]).core.sentence
        = [] :=
  ⟨sentenceStep_eq, by decide, by decide⟩

/-- C3: the inference client maps every transport error, missing or falsy
response body, and parse failure to the sentinel reply, and a sentinel
result never changes the transcript. -/
theorem inference_client_error_sentinel :
    (∀ p : Option ParsedJson,
      translateSignLanguageFrame ServiceOutcome.transportError = sentinel
      ∧ translateSignLanguageFrame (ServiceOutcome.respond none p) = sentinel
      ∧ translateSignLanguageFrame (ServiceOutcome.respond (some "") p) = sentinel)
    ∧ (∀ jt : String,
        translateSignLanguageFrame (ServiceOutcome.respond (some jt) none) = sentinel)
    ∧ (∀ (m : Bool) (prev : List String) (ts : Nat),
        (sentenceStep m
          { text := sentinel.text, confidence := sentinel.confidence, timestamp := ts }
          prev).1 = prev) := by
  refine ⟨fun p => ⟨rfl, rfl, ?_⟩, fun jt => ?_, fun m prev ts => ?_⟩
  · simp [translateSignLanguageFrame, jsFalsyStr]
  · by_cases h : jt = "" <;> simp [translateSignLanguageFrame, jsFalsyStr, h]
  · simp [sentenceStep, sentinel]

/-- C10: the client never returns the empty label — a missing or empty
`sign` field becomes `"..."` and a missing or zero `confidence` field
becomes `0` before the reply reaches the caller. -/
theorem client_label_normalization :
    (∀ o : ServiceOutcome, (translateSignLanguageFrame o).text ≠ "")
    ∧ (∀ (jt : String) (c : Option Nat), jt ≠ "" →
        (translateSignLanguageFrame (ServiceOutcome.respond (some jt)
          (some { sign := none, confidence := c }))).text = "..."
        ∧ (translateSignLanguageFrame (ServiceOutcome.respond (some jt)
          (some { sign := some "", confidence := c }))).text = "...")
    ∧ (∀ (jt : String) (sg : Option String), jt ≠ "" →
        (translateSignLanguageFrame (ServiceOutcome.respond (some jt)
          (some { sign := sg, confidence := none }))).confidence = 0
        ∧ (translateSignLanguageFrame (ServiceOutcome.respond (some jt)
          (some { sign := sg, confidence := some 0 }))).confidence = 0) := by
  refine ⟨fun o => ?_, fun jt c hjt => ?_, fun jt sg hjt => ?_⟩
  · cases o with
    | transportError => simp [translateSignLanguageFrame, sentinel]
    | respond jt p =>
      unfold translateSignLanguageFrame
      by_cases hf : jsFalsyStr jt
      · simp [hf, sentinel]
      · simp only [hf, Bool.false_eq_true, if_false]
        cases p with
        | none => simp [sentinel]
        | some result =>
          simp only [jsOrElseStr]
          cases result.sign with
          | none => simp
          | some s => by_cases hse : s = "" <;> simp [hse]
  · constructor <;>
      simp [translateSignLanguageFrame, jsFalsyStr, hjt, jsOrElseStr]
  · constructor <;>
      simp [translateSignLanguageFrame, jsFalsyStr, hjt, jsOrElseNat]

theorem client_label_normalization_witness :
    ("j" : String) ≠ ""
    ∧ (translateSignLanguageFrame (ServiceOutcome.respond (some "j")
        (some { sign := none, confidence := some 77 }))).text = "..."
    ∧ (translateSignLanguageFrame (ServiceOutcome.respond (some "j")
        (some { sign := some "Hi", confidence := none }))).confidence = 0 :=
  ⟨by decide,
   (client_label_normalization.2.1 "j" (some 77) (by decide)).1,
   (client_label_normalization.2.2 "j" (some "Hi") (by decide)).1⟩

/-- C7: the repeat filter only remembers the immediately preceding
transcript entry, so a run A, B, A (all above threshold, non-sentinel,
A ≠ B, and A not already last) appends all three labels. -/
theorem repeat_filter_compares_last_only (m : Bool) (prev : List String)
    (a b : String) (ca cb ca2 t1 t2 t3 : Nat)
    (ha : a ≠ "...") (hb : b ≠ "...") (hca : ca > 60) (hcb : cb > 60)
    (hca2 : ca2 > 60) (hab : a ≠ b) (hlast : prev.getLast? ≠ some a) :
    (sentenceStep m { text := a, confidence := ca2, timestamp := t3 }
      ((sentenceStep m { text := b, confidence := cb, timestamp := t2 }
        ((sentenceStep m { text := a, confidence := ca, timestamp := t1 } prev).1)).1)).1
      = prev ++ [a, b, a] := by
  have s1 : (sentenceStep m { text := a, confidence := ca, timestamp := t1 } prev).1
      = prev ++ [a] := by
    rw [sentenceStep_eq, if_pos ⟨ha, hca, hlast⟩]
  have s2 : (sentenceStep m { text := b, confidence := cb, timestamp := t2 }
      (prev ++ [a])).1 = (prev ++ [a]) ++ [b] := by
    rw [sentenceStep_eq,
      if_pos ⟨hb, hcb, by simp only [List.getLast?_concat, ne_eq,
        Option.some.injEq]; exact hab⟩]
  have s3 : (sentenceStep m { text := a, confidence := ca2, timestamp := t3 }
      ((prev ++ [a]) ++ [b])).1 = ((prev ++ [a]) ++ [b]) ++ [a] := by
    rw [sentenceStep_eq,
      if_pos ⟨ha, hca2, by simp only [List.getLast?_concat, ne_eq,
        Option.some.injEq]; exact Ne.symm hab⟩]
  rw [s1, s2, s3]
  simp

theorem repeat_filter_compares_last_only_witness :
    (sentenceStep false { text := "Hello", confidence := 80, timestamp := 3 }
      ((sentenceStep false { text := "Yes", confidence := 80, timestamp := 2 }
        ((sentenceStep false { text := "Hello", confidence := 80, timestamp := 1 } []).1)).1)).1
      = [] ++ ["Hello", "Yes", "Hello"] :=
  repeat_filter_compares_last_only false [] "Hello" "Yes" 80 80 80 1 2 3
    (by decide) (by decide) (by decide) (by decide) (by decide) (by decide) (by decide)

theorem run_append (s : SysState) (es fs : List AppEvent) :
    run s (es ++ fs) = run (run s es) fs := by
  simp [run, List.foldl_append]

/-- A tick followed by the completion of the call it issued (or, if the flag
was already set, the completion of the call in flight) processes exactly one
reply through the body of the `try` block. -/
theorem run_tick_finish_core (s : SysState) (h : BusyInv s)
    (o : ServiceOutcome) (now : String) (ms : Nat) :
    (run s [AppEvent.frameTick, AppEvent.complete (Completion.finish o now ms)]).core
      = (processResult s.isMuted now
          { text := (translateSignLanguageFrame o).text
            confidence := (translateSignLanguageFrame o).confidence
            timestamp := ms } s.core).1 := by
  unfold BusyInv at h
  by_cases hp : s.isProcessing
  · have h1 : s.outstanding = 1 := by simpa [hp] using h
    simp [run, step, hp, h1]
  · have h0 : s.outstanding = 0 := by simpa [hp] using h
    simp [run, step, hp, h0]

theorem histLen_step (s : SysState) (e : AppEvent)
    (h : s.core.confidenceHistory.length = 10) :
    (step s e).core.confidenceHistory.length = 10 := by
  cases e with
  | frameTick => by_cases hp : s.isProcessing <;> simp [step, hp, h]
  | complete c =>
    by_cases ho : s.outstanding = 0
    · simp [step, ho, h]
    · cases c with
      | finish o now ms =>
        simp [step, ho, processResult, updateConfidenceHistory]
        omega
      | reject => simp [step, ho, h]
  | toggleRecording => by_cases ha : s.isActive <;> simp [step, ha, h]
  | toggleMute => simp [step, h]
  | clearSentence => simp [step, h]

theorem histLen_run (s : SysState) (es : List AppEvent)
    (h : s.core.confidenceHistory.length = 10) :
    (run s es).core.confidenceHistory.length = 10 := by
  induction es generalizing s with
  | nil => exact h
  | cons e es ih =>
    simpa [run, List.foldl_cons] using ih (step s e) (histLen_step s e h)

/-- C4: the confidence history holds exactly 10 points after every event
sequence — so it never exceeds capacity 10 — and each processed reply
appends one point while evicting the oldest one. -/
theorem confidence_history_capacity :
    (∀ es : List AppEvent,
      ((run initialSys es).core.confidenceHistory).length = 10)
    ∧ (∀ (es : List AppEvent) (o : ServiceOutcome) (now : String) (ms : Nat),
        (run initialSys (es ++ [AppEvent.frameTick,
            AppEvent.complete (Completion.finish o now ms)])).core.confidenceHistory
          = ((run initialSys es).core.confidenceHistory).drop 1
            ++ [{ name := now
                  confidence := (translateSignLanguageFrame o).confidence }]) := by
  constructor
  · intro es
    exact histLen_run initialSys es (by simp [initialSys, initialCore])
  · intro es o now ms
    rw [run_append,
      run_tick_finish_core (run initialSys es) (busyInv_run initialSys es busyInv_initial) o now ms]
    simp [processResult, updateConfidenceHistory]

/-- C5 counterexample: a Hello/80 reply processed at time `"12:00:00"`
appends the point `{ name := "12:00:00", confidence := 80 }`, not a point
carrying the label `"Hello"`. -/
theorem history_point_not_labeled :
    (run initialSys [AppEvent.frameTick,
        AppEvent.complete (Completion.finish
          (ServiceOutcome.respond (some "j")
            (some { sign := some "Hello", confidence := some 80 }))
          "12:00:00" 5)]).core.confidenceHistory.getLast?
      = some { name := "12:00:00", confidence := 80 }
    ∧ ¬ ((run initialSys [AppEvent.frameTick,
        AppEvent.complete (Completion.finish
          (ServiceOutcome.respond (some "j")
            (some { sign := some "Hello", confidence := some 80 }))
          "12:00:00" 5)]).core.confidenceHistory.getLast?
      = some { name := "Hello", confidence := 80 }) := by
  constructor <;> decide

/-- C5 (amended): the point appended for a processed reply pairs the
`formatTime()` string of the processing moment with the reply's confidence;
the reply's label is not stored in the history. -/
theorem history_point_content (es : List AppEvent) (o : ServiceOutcome)
    (now : String) (ms : Nat) :
    (run initialSys (es ++ [AppEvent.frameTick,
        AppEvent.complete (Completion.finish o now ms)])).core.confidenceHistory.getLast?
      = some { name := now
               confidence := (translateSignLanguageFrame o).confidence } := by
  rw [run_append,
    run_tick_finish_core (run initialSys es) (busyInv_run initialSys es busyInv_initial) o now ms]
  simp [processResult, updateConfidenceHistory, List.getLast?_concat]

/-- C6: toggling the session flag while inactive activates it and resets the
transcript to empty and the history to ten zero-confidence points; toggling
while active deactivates without touching either. -/
theorem toggle_recording_reset :
    (∀ s : SysState, s.isActive = false →
      (step s AppEvent.toggleRecording).isActive = true
      ∧ (step s AppEvent.toggleRecording).core.sentence = []
      ∧ (step s AppEvent.toggleRecording).core.confidenceHistory
          = List.replicate 10 { name := "", confidence := 0 })
    ∧ (∀ s : SysState, s.isActive = true →
      (step s AppEvent.toggleRecording).isActive = false
      ∧ (step s AppEvent.toggleRecording).core = s.core) := by
  constructor <;> intro s h <;> simp [step, h]

theorem toggle_recording_reset_witness :
    ((step initialSys AppEvent.toggleRecording).isActive = true
      ∧ (step initialSys AppEvent.toggleRecording).core.sentence = []
      ∧ (step initialSys AppEvent.toggleRecording).core.confidenceHistory
          = List.replicate 10 { name := "", confidence := 0 })
    ∧ ((step (run initialSys [AppEvent.toggleRecording]) AppEvent.toggleRecording).isActive = false
      ∧ (step (run initialSys [AppEvent.toggleRecording]) AppEvent.toggleRecording).core
          = (run initialSys [AppEvent.toggleRecording]).core) :=
  ⟨toggle_recording_reset.1 initialSys (by decide),
   toggle_recording_reset.2 (run initialSys [AppEvent.toggleRecording]) (by decide)⟩

/-- C8 (the code at the failing input): because the unmount cleanup's
captured `stream` is the first render's `null`, no track of the acquired
media stream is ever stopped. -/
theorem camera_unmount_stops_no_tracks :
    tracksStoppedOnUnmount streamCapturedByCleanup = [] := rfl

theorem sentenceStep_mute_indep (m m' : Bool) (r : TranslationResult)
    (prev : List String) :
    (sentenceStep m r prev).1 = (sentenceStep m' r prev).1
    ∧ (sentenceStep m r prev).2.1 = (sentenceStep m' r prev).2.1 := by
  rw [sentenceStep_eq m, sentenceStep_eq m']
  by_cases h : r.text ≠ "..." ∧ r.confidence > 60 ∧ prev.getLast? ≠ some r.text <;>
    simp [h]

theorem processResult_mute_indep (m m' : Bool) (now : String)
    (r : TranslationResult) (c : AppCore) :
    (processResult m now r c).1 = (processResult m' now r c).1
    ∧ (processResult m now r c).2.1 = (processResult m' now r c).2.1 := by
  unfold processResult
  refine ⟨?_, (sentenceStep_mute_indep m m' r c.sentence).2⟩
  simp [AppCore.mk.injEq, (sentenceStep_mute_indep m m' r c.sentence).1]

/-- Two system states that agree on everything except the mute flag and the
utterance trace. -/
def ExceptMute (s t : SysState) : Prop :=
  s.core = t.core ∧ s.isActive = t.isActive ∧ s.isProcessing = t.isProcessing
    ∧ s.outstanding = t.outstanding ∧ s.speakCalls = t.speakCalls

theorem exceptMute_step (s t : SysState) (e : AppEvent) (h : ExceptMute s t) :
    ExceptMute (step s e) (step t e) := by
  obtain ⟨hc, ha, hp, ho, hk⟩ := h
  cases e with
  | frameTick =>
    simp only [step]
    rw [hp]
    by_cases hb : t.isProcessing <;>
      simp [hb, ExceptMute, hc, ha, hp, ho, hk]
  | complete c =>
    simp only [step]
    rw [ho]
    by_cases hz : t.outstanding = 0
    · simp [hz, ExceptMute, hc, ha, hp, ho, hk]
    · cases c with
      | finish o now ms =>
        simp only [hz, if_false]
        refine ⟨?_, ha, rfl, rfl, ?_⟩
        · rw [hc]
          exact (processResult_mute_indep s.isMuted t.isMuted now _ t.core).1
        · rw [hk, hc,
            (processResult_mute_indep s.isMuted t.isMuted now _ t.core).2]
      | reject =>
        simp only [hz, if_false]
        exact ⟨hc, ha, rfl, rfl, hk⟩
  | toggleRecording =>
    simp only [step]
    rw [ha]
    by_cases hb : t.isActive <;>
      simp [hb, ExceptMute, hc, ha, hp, ho, hk]
  | toggleMute =>
    simp only [step]
    exact ⟨hc, ha, hp, ho, hk⟩
  | clearSentence =>
    simp only [step]
    exact ⟨by rw [hc], ha, hp, ho, hk⟩

theorem exceptMute_run (s t : SysState) (es : List AppEvent)
    (h : ExceptMute s t) : ExceptMute (run s es) (run t es) := by
  induction es generalizing s t with
  | nil => exact h
  | cons e es ih =>
    simpa [run, List.foldl_cons] using ih (step s e) (step t e) (exceptMute_step s t e h)

/-- C9: over any event sequence, the transcript and the confidence history
are the same whether the session starts muted or unmuted; a muted `speak`
issues no utterance. -/
theorem mute_noninterference :
    (∀ es : List AppEvent,
      (run { initialSys with isMuted := true } es).core.sentence
          = (run initialSys es).core.sentence
      ∧ (run { initialSys with isMuted := true } es).core.confidenceHistory
          = (run initialSys es).core.confidenceHistory)
    ∧ (∀ text : String, speak true text = []) := by
  constructor
  · intro es
    have h := exceptMute_run { initialSys with isMuted := true } initialSys es
      ⟨rfl, rfl, rfl, rfl, rfl⟩
    exact ⟨by rw [h.1], by rw [h.1]⟩
  · intro text
    simp [speak]
